import Mathlib

/-!
Shallow embedding of `sglang/srt/function_call/ebnf_composer.py` (class
`EBNFComposer`), the EBNF grammar composer for constrained function-call
decoding, together with theorems settling the specification claims.

Python strings are modelled as Lean `String`, Python dicts that are only
read in declaration order as association lists, and Python exceptions
(`KeyError` from direct dict indexing, `str.format` errors) as `Option`
with `none` for a raised exception.
-/

namespace EBNF

/-! ## Generic string helpers (Python `str.join` and character membership) -/

/-- Python `sep.join(parts)`. -/
def joinSep (sep : String) : List String → String
  | [] => ""
  | [x] => x
  | x :: y :: xs => x ++ sep ++ joinSep sep (y :: xs)

/-! ## Data model

`Tool` mirrors the shape read by `EBNFComposer.build_ebnf`:
`tool.function.name`, `tool.function.parameters` (a possibly absent dict
with keys `properties` and `required`). A property schema may carry an
`enum` list and/or a `type` (a single type name or a union list). -/

/-- A JSON literal value as it can appear in an `enum` list. `pyStr` is
Python `str(v)` and `truthy` is Python truth-value testing. -/
inductive JVal where
  | b (v : Bool)
  | s (v : String)
  | i (v : Int)
deriving DecidableEq, Repr

def JVal.pyStr : JVal → String
  | .b v => if v then "True" else "False"
  | .s v => v
  | .i v => toString v

def JVal.truthy : JVal → Bool
  | .b v => v
  | .s v => !v.isEmpty
  | .i v => v != 0

/-- The `type` field of a property schema: a single type name or a union list. -/
inductive TypeField where
  | single (t : String)
  | listOf (ts : List String)
deriving DecidableEq, Repr

/-- A property schema: optional `enum` and `type` entries. -/
structure PropSchema where
  enum? : Option (List JVal)
  type? : Option TypeField
deriving DecidableEq, Repr

/-- The `parameters` dict of a tool function: `properties` is an ordered
name-to-schema mapping, `required` the list of required property names. -/
structure Params where
  properties : List (String × PropSchema)
  required : List String
deriving DecidableEq, Repr

structure ToolFunction where
  name : String
  parameters : Option Params
deriving DecidableEq, Repr

structure Tool where
  function : ToolFunction
deriving DecidableEq, Repr

/-! ## Value Rule Resolver (`get_value_rule`, `_handle_enum`, `_handle_type`) -/

/-- `BASE_TYPE_MAPPING`: shared type-name to rule-name mapping. -/
def BASE_TYPE_MAPPING : List (String × String) :=
  [("string", "basic_string"),
   ("number", "basic_number"),
   ("integer", "basic_number"),
   ("boolean", "basic_boolean"),
   ("null", "basic_null"),
   ("array", "basic_array"),
   ("object", "basic_object")]

/-- `FORMAT_TYPE_OVERRIDES`: format-specific overrides (`.get(fmt, {})`). -/
def FORMAT_TYPE_OVERRIDES (function_format : String) : List (String × String) :=
  if function_format = "pythonic" then
    [("boolean", "\"True\" | \"False\""), ("null", "\"None\"")]
  else if function_format = "xml" then
    [("string", "xml_text")]
  else []

/-- `get_type_mapping`, applied to one type name: the base mapping updated
with the format's overrides (override entries win). -/
def get_type_mapping (function_format : String) (t : String) : Option String :=
  match (FORMAT_TYPE_OVERRIDES function_format).lookup t with
  | some v => some v
  | none => BASE_TYPE_MAPPING.lookup t

/-- `prop.get("type", "string")` as used by `_handle_enum`. -/
def enumPropType (type? : Option TypeField) : TypeField :=
  type?.getD (.single "string")

/-- The inner `format_enum_val` of `_handle_enum`. -/
def format_enum_val (prop_type : TypeField) (function_format : String) (v : JVal) : String :=
  if prop_type = .single "boolean" then
    if function_format = "json" ∨ function_format = "xml" then
      if v.truthy then "true" else "false"
    else if function_format = "pythonic" then
      if v.truthy then "True" else "False"
    else v.pyStr
  else if prop_type = .single "string" then
    if function_format = "xml" then "\"" ++ v.pyStr ++ "\""
    else "\"\\\"" ++ v.pyStr ++ "\\\"\""
  else v.pyStr

/-- `_handle_enum`: format each enum value, join with `|`, parenthesize
when there is more than one element. -/
def handle_enum (enum_values : List JVal) (type? : Option TypeField)
    (function_format : String) : String :=
  let formatted_values := enum_values.map (format_enum_val (enumPropType type?) function_format)
  let enum_rule := joinSep " | " formatted_values
  if formatted_values.length > 1 then "(" ++ enum_rule ++ ")" else enum_rule

/-- `_handle_type`: resolve a single type name or a union list through the
combined type mapping, unknown names falling back to `function_format`. -/
def handle_type (prop_type : TypeField) (function_format : String) : String :=
  match prop_type with
  | .listOf ts =>
      if ts.isEmpty then function_format
      else joinSep " | " (ts.map (fun t => (get_type_mapping function_format t).getD function_format))
  | .single t => (get_type_mapping function_format t).getD function_format

/-- `get_value_rule`: enum takes precedence over type; with neither, the
format's top-level value rule name (the format string itself) is used. -/
def get_value_rule (prop : PropSchema) (function_format : String) : String :=
  match prop.enum? with
  | some vs => handle_enum vs prop.type? function_format
  | none =>
    match prop.type? with
    | some t => handle_type t function_format
    | none => function_format

/-! ## Python `str.format` with keyword arguments

Templates contain literal text, doubled braces for a literal brace, and
replacement fields naming a keyword argument. `subst` maps a field name to
its value; `none` models a `KeyError`/`ValueError` raised by `format`. -/

/-- Split `l` at the first closing brace, returning the field name and the
rest; `none` when the brace is never closed. -/
def splitField : List Char → Option (List Char × List Char)
  | [] => none
  | c :: rest =>
    if c = '\x7d' then some ([], rest)
    else
      match splitField rest with
      | none => none
      | some (f, r) => some (c :: f, r)

def pyFormatAux (subst : String → Option String) : List Char → Option (List Char)
  | [] => some []
  | c :: rest =>
    if c = '\x7b' then
      match rest with
      | [] => none
      | c2 :: rest2 =>
        if c2 = '\x7b' then
          (pyFormatAux subst rest2).map (fun t => '\x7b' :: t)
        else
          match h : splitField (c2 :: rest2) with
          | none => none
          | some (f, r) =>
            match subst (String.mk f) with
            | none => none
            | some v => (pyFormatAux subst r).map (fun t => v.data ++ t)
    else if c = '\x7d' then
      match rest with
      | [] => none
      | c2 :: rest2 =>
        if c2 = '\x7d' then (pyFormatAux subst rest2).map (fun t => '\x7d' :: t)
        else none
    else
      (pyFormatAux subst rest).map (fun t => c :: t)
termination_by l => l.length
decreasing_by
  · simp; omega
  · have key : ∀ l f r, splitField l = some (f, r) → r.length < l.length := by
      intro l
      induction l with
      | nil => intro f r hsf; simp [splitField] at hsf
      | cons c0 rest0 ih =>
        intro f r hsf
        simp only [splitField] at hsf
        by_cases hc : c0 = '\x7d'
        · simp [hc] at hsf
          simp [hsf.2.symm]
        · simp only [hc, if_false] at hsf
          cases hr : splitField rest0 with
          | none => rw [hr] at hsf; simp at hsf
          | some p =>
            rw [hr] at hsf
            simp only [Option.some.injEq, Prod.mk.injEq] at hsf
            obtain ⟨hf, hrr⟩ := hsf
            subst hrr
            have := ih p.1 p.2 (by rw [hr])
            simp only [List.length_cons]
            omega
    have := key _ _ _ h
    simp at this ⊢
    omega
  · simp; omega
  · simp

/-- `template.format(**kwargs)` with `subst` the keyword-argument lookup. -/
def pyFormat (subst : String → Option String) (template : String) : Option String :=
  (pyFormatAux subst template.data).map String.mk

/-- Keyword arguments of `key_value_template.format(key=..., valrule=...)`. -/
def kvSubst (key valrule : String) (field : String) : Option String :=
  if field = "key" then some key
  else if field = "valrule" then some valrule
  else none

/-- Keyword arguments of `args_template.format(arg_rules=...)`. -/
def argSubst (arg_rules : String) (field : String) : Option String :=
  if field = "arg_rules" then some arg_rules else none

/-- Keyword arguments of `call_template.format(name=..., arguments_rule=...)`. -/
def callSubst (name arguments_rule : String) (field : String) : Option String :=
  if field = "name" then some name
  else if field = "arguments_rule" then some arguments_rule
  else none

/-! ## Format templates and base grammar text

Literal braces of the Python sources are written `\x7b` / `\x7d`. -/

/-- `CALL_RULE_MAP`; `none` models a `KeyError` on direct indexing. -/
def CALL_RULE_MAP (function_format : String) : Option String :=
  if function_format = "pythonic" then
    some "call_\x7bname\x7d ::= \"\x7bname\x7d\" \"(\" \x7barguments_rule\x7d \")\""
  else if function_format = "json" then
    some "call_\x7bname\x7d ::= \"\x7b\x7b\" \"\\\"name\\\"\" \":\" \"\\\"\x7bname\x7d\\\"\" \", \" \"\\\"arguments\\\"\" \":\" \x7barguments_rule\x7d \"\x7d\x7d\""
  else if function_format = "xml" then
    some "call_\x7bname\x7d ::= \"<function=\x7bname\x7d>\\n\" \x7barguments_rule\x7d \"\\n</function>\""
  else none

/-- `ARGUMENTS_RULE_MAP`; `none` models a `KeyError` on direct indexing. -/
def ARGUMENTS_RULE_MAP (function_format : String) : Option String :=
  if function_format = "pythonic" then some "\x7barg_rules\x7d"
  else if function_format = "json" then some "\"\x7b\x7b\" \x7barg_rules\x7d \"\x7d\x7d\""
  else if function_format = "xml" then some "\x7barg_rules\x7d"
  else none

/-- `KEY_VALUE_RULE_MAP`; `none` models a `KeyError` on direct indexing. -/
def KEY_VALUE_RULE_MAP (function_format : String) : Option String :=
  if function_format = "pythonic" then some "\"\x7bkey\x7d\" \"=\" \x7bvalrule\x7d"
  else if function_format = "json" then some "\"\\\"\x7bkey\x7d\\\"\" \":\" \x7bvalrule\x7d"
  else if function_format = "xml" then
    some "\"<parameter=\x7bkey\x7d>\\n\" \x7bvalrule\x7d \"\\n</parameter>\""
  else none

/-- `BASE_PRIMITIVE_GRAMMAR` (a raw triple-quoted Python string). -/
def BASE_PRIMITIVE_GRAMMAR : String :=
  "\n        basic_string ::= (([\\\"] basic_string_1 [\\\"]))\n        basic_string_1 ::= \"\" | [^\"\\\\\\x00-\\x1F] basic_string_1 | \"\\\\\" escape basic_string_1\n        escape ::= [\"\\\\/bfnrt] | \"u\" [A-Fa-f0-9]\x7b4\x7d\n        basic_integer ::= (\"0\" | \"-\"? [1-9] [0-9]*) \".0\"?\n        basic_number ::= (\"0\" | \"-\"? [1-9] [0-9]*) (\".\" [0-9]+)? ([eE] [+-]? [0-9]+)?\n        basic_array ::= \"[\" (\"\" | ws basic_any (ws \",\" ws basic_any)*) ws \"]\"\n        basic_object ::= \"\x7b\" (\"\" | ws basic_string ws \":\" ws basic_any ( ws \",\" ws basic_string ws \":\" ws basic_any)*) ws \"\x7d\"\n        ws ::= [ \\n\\t]*\n    "

/-- `json_grammar_ebnf_str`. -/
def json_grammar_ebnf_str : String :=
  "\n        json ::= basic_array | basic_object\n        basic_any ::= basic_number | basic_string | basic_boolean | basic_null | basic_array | basic_object\n        basic_boolean ::= \"true\" | \"false\"\n        basic_null ::= \"null\"\n    "
  ++ BASE_PRIMITIVE_GRAMMAR

/-- `pythonic_grammar_ebnf_str`. -/
def pythonic_grammar_ebnf_str : String :=
  "\n        pythonic ::= basic_number | basic_string | basic_array | \"True\" | \"False\" | \"None\"\n        basic_any ::= basic_number | basic_string | basic_array | basic_object\n        basic_boolean ::= \"True\" | \"False\"\n        basic_null ::= \"None\"\n    "
  ++ BASE_PRIMITIVE_GRAMMAR

/-- `xml_grammar_ebnf_str`. -/
def xml_grammar_ebnf_str : String :=
  "\n        xml ::= xml_element | xml_text\n        xml_element ::= basic_string | basic_number | basic_boolean | basic_null | basic_array | basic_object\n        xml_text ::= [^<>]*\n        basic_any ::= basic_number | basic_string | basic_boolean | basic_null | basic_array | basic_object\n        basic_boolean ::= \"true\" | \"false\"\n        basic_null ::= \"null\"\n    "
  ++ BASE_PRIMITIVE_GRAMMAR

/-- `grammar_dict.get(function_format, json_grammar_ebnf_str)` of Step 5. -/
def grammar_for (function_format : String) : String :=
  if function_format = "pythonic" then pythonic_grammar_ebnf_str
  else if function_format = "json" then json_grammar_ebnf_str
  else if function_format = "xml" then xml_grammar_ebnf_str
  else json_grammar_ebnf_str

/-! ## Property Ordering Combinator (the loop body of Step 4) -/

/-- The `opt_alternatives` list: one alternative per start index, the
alternative for the head followed by each later fragment wrapped as
`( "sep" fragment )?`. -/
def opt_alternatives (key_value_separator : String) : List String → List String
  | [] => []
  | k :: rest =>
      (k ++ String.join (rest.map
        (fun kj => " ( \"" ++ key_value_separator ++ "\" " ++ kj ++ " )?")))
      :: opt_alternatives key_value_separator rest

/-- `rule_parts` / `combined_args` of Step 4, on the pre-rendered required
and optional key-value fragment lists. -/
def combined_args (key_value_separator : String)
    (requiredKvs optionalKvs : List String) : String :=
  let rule_parts : List String :=
    (if requiredKvs.isEmpty then []
     else [joinSep (" \"" ++ key_value_separator ++ "\" ") requiredKvs])
    ++
    (if optionalKvs.isEmpty then []
     else if requiredKvs.isEmpty then
       ["( ", joinSep " | " (opt_alternatives key_value_separator optionalKvs), " )?"]
     else
       [" ( \"" ++ key_value_separator ++ "\" ( ",
        joinSep " | " (opt_alternatives key_value_separator optionalKvs),
        " ) )?"])
  String.join rule_parts

/-- The required/optional partition of `ordered_props` (`p in required_props`
is set membership, i.e. list membership of the `required` list). -/
def partition_props (ordered_props required_props : List String) :
    List String × List String :=
  (ordered_props.filter (fun p => required_props.contains p),
   ordered_props.filter (fun p => !required_props.contains p))

/-! ## Call/Argument Assembler (`build_ebnf`) -/

/-- The two lines emitted for one tool in Step 4: its `call_<name>` rule and
its `arguments_<name>` rule. -/
def toolLines (call_template args_template key_value_template : String)
    (function_format key_value_separator : String) (tool : Tool) :
    Option (List String) := do
  let tool_name := tool.function.name
  let params := tool.function.parameters.getD ⟨[], []⟩
  let properties := params.properties
  let required_props := params.required
  let prop_kv_pairs ← properties.mapM (fun p =>
    (pyFormat (kvSubst p.1 (get_value_rule p.2 function_format)) key_value_template).map
      (fun v => (p.1, v)))
  let ordered_props := properties.map Prod.fst
  let (required, optional) := partition_props ordered_props required_props
  let kv := fun k => (prop_kv_pairs.lookup k).getD ""
  let ca := combined_args key_value_separator (required.map kv) (optional.map kv)
  let arguments_rule ← pyFormat (argSubst ca) args_template
  let callLine ← pyFormat (callSubst tool_name ("arguments_" ++ tool_name)) call_template
  pure [callLine, "arguments_" ++ tool_name ++ " ::= " ++ arguments_rule]

/-- Python truthiness of an optional-string argument. -/
def optTruthy : Option String → Bool
  | some s => !s.isEmpty
  | none => false

/-- Step 1: the right-hand side of the `root` rule. -/
def root_rule (sequence_start_token sequence_end_token
    individual_call_start_token individual_call_end_token
    tool_call_separator : Option String) : String :=
  let function_call_unit :=
    if optTruthy individual_call_start_token ∧ optTruthy individual_call_end_token then
      "\"" ++ individual_call_start_token.getD "" ++ "\" function_call \""
        ++ individual_call_end_token.getD "" ++ "\""
    else "function_call"
  let base_pattern :=
    match tool_call_separator with
    | some sep => function_call_unit ++ " ( \"" ++ sep ++ "\" " ++ function_call_unit ++ " )*"
    | none => function_call_unit
  if optTruthy sequence_start_token ∧ optTruthy sequence_end_token then
    "\"" ++ sequence_start_token.getD "" ++ "\" " ++ base_pattern ++ " \""
      ++ sequence_end_token.getD "" ++ "\""
  else base_pattern

/-- Step 3: the call, arguments and key-value templates, honouring the
caller's truthy overrides; `none` models the `KeyError` raised when the
format is missing from a template map. -/
def templates_for (function_format : String)
    (call_rule_fmt key_value_rule_fmt : Option String) :
    Option (String × String × String) := do
  let call_template ←
    if optTruthy call_rule_fmt then
      pure ("call_\x7bname\x7d ::= " ++ call_rule_fmt.getD "")
    else CALL_RULE_MAP function_format
  let args_template ← ARGUMENTS_RULE_MAP function_format
  let key_value_template ←
    if optTruthy key_value_rule_fmt then pure (key_value_rule_fmt.getD "")
    else KEY_VALUE_RULE_MAP function_format
  pure (call_template, args_template, key_value_template)

/-- The `ebnf_lines` list built by `build_ebnf` before the final join. -/
def ebnf_lines (tools : List Tool) (function_format : String)
    (sequence_start_token sequence_end_token
     individual_call_start_token individual_call_end_token
     tool_call_separator call_rule_fmt key_value_rule_fmt : Option String)
    (key_value_separator : String) : Option (List String) := do
  let header : List String :=
    ["root ::= " ++ root_rule sequence_start_token sequence_end_token
        individual_call_start_token individual_call_end_token tool_call_separator,
     "function_call ::= " ++ joinSep " | " (tools.map (fun t => "call_" ++ t.function.name))]
  let (call_template, args_template, key_value_template) ←
    templates_for function_format call_rule_fmt key_value_rule_fmt
  let toolRules ← tools.mapM
    (toolLines call_template args_template key_value_template
      function_format key_value_separator)
  pure (header ++ toolRules.flatten ++ [grammar_for function_format])

/-- `EBNFComposer.build_ebnf`: `none` models a raised exception. -/
def build_ebnf (tools : List Tool) (function_format : String)
    (sequence_start_token sequence_end_token
     individual_call_start_token individual_call_end_token
     tool_call_separator call_rule_fmt key_value_rule_fmt : Option String)
    (key_value_separator : String) : Option String :=
  (ebnf_lines tools function_format sequence_start_token sequence_end_token
      individual_call_start_token individual_call_end_token tool_call_separator
      call_rule_fmt key_value_rule_fmt key_value_separator).map
    (fun ls => joinSep "\n" ls)

/-! ## Specification-side definitions

These restate, in the spec's own index-based wording, the shape the
optional-property alternation is claimed to take; the theorems compare
them with what the code builds. -/

/-- The spec's alternative for start index `i`: fragment `i` followed, for
each later index `j > i` in declaration order, by `( "sep" fragment_j )?`. -/
def spec_opt_alternative (key_value_separator : String) (fs : List String) (i : Nat) : String :=
  fs.getD i "" ++ String.join
    (((List.range fs.length).filter (fun j => i < j)).map
      (fun j => " ( \"" ++ key_value_separator ++ "\" " ++ fs.getD j "" ++ " )?"))

/-- The spec's optional-only fragment: one alternative per start index,
joined with `|`, the whole alternation wrapped in one outer `( ... )?`. -/
def spec_optional_alternation (key_value_separator : String) (fs : List String) : String :=
  "( " ++ joinSep " | "
      ((List.range fs.length).map (spec_opt_alternative key_value_separator fs))
    ++ " )?"

/-- Number of start positions of `s` at which `pat` occurs. -/
def occursAt (pat : List Char) : List Char → Nat
  | [] => if pat.isEmpty then 1 else 0
  | c :: rest => (if pat.isPrefixOf (c :: rest) then 1 else 0) + occursAt pat rest

/-- Number of occurrences of the substring `pat` in `s`. -/
def countOccur (s pat : String) : Nat := occursAt pat.data s.data

/-! ## Helper lemmas -/

theorem string_data_append (a b : String) : (a ++ b).data = a.data ++ b.data := rfl

theorem string_eq_of_data {a b : String} (h : a.data = b.data) : a = b := by
  cases a
  cases b
  exact congrArg String.mk h

theorem empty_append (s : String) : "" ++ s = s := by
  apply string_eq_of_data
  simp [string_data_append]

theorem append_empty (s : String) : s ++ "" = s := by
  apply string_eq_of_data
  simp [string_data_append]

theorem mem_data_append {c : Char} (a b : String) :
    c ∈ (a ++ b).data ↔ c ∈ a.data ∨ c ∈ b.data := by
  rw [string_data_append]
  exact List.mem_append

/-- Characters of a Python-style join come from the separator or a part. -/
theorem mem_joinSep_data {c : Char} (sep : String) :
    ∀ l : List String, c ∈ (joinSep sep l).data →
      c ∈ sep.data ∨ ∃ x ∈ l, c ∈ x.data := by
  intro l
  induction l with
  | nil => intro h; simp [joinSep] at h
  | cons x xs ih =>
    cases xs with
    | nil =>
      intro h
      exact Or.inr ⟨x, by simp, h⟩
    | cons y ys =>
      intro h
      rw [show joinSep sep (x :: y :: ys) = x ++ sep ++ joinSep sep (y :: ys) from rfl] at h
      rcases (mem_data_append _ _).mp h with h1 | h2
      · rcases (mem_data_append _ _).mp h1 with hx | hs
        · exact Or.inr ⟨x, by simp, hx⟩
        · exact Or.inl hs
      · rcases ih h2 with hs | ⟨z, hz, hc⟩
        · exact Or.inl hs
        · exact Or.inr ⟨z, by simp [hz], hc⟩

/-- Mapping an index-to-element read over `List.range` recovers the list. -/
theorem map_getD_range {α β : Type} (g : α → β) (d : α) :
    ∀ l : List α, (List.range l.length).map (fun i => g (l.getD i d)) = l.map g := by
  intro l
  induction l with
  | nil => rfl
  | cons a l ih =>
    rw [List.length_cons, List.range_succ_eq_map]
    rw [List.map_cons, List.map_map]
    have : ((List.range l.length).map ((fun i => g ((a :: l).getD i d)) ∘ Nat.succ))
        = (List.range l.length).map (fun i => g (l.getD i d)) := by
      apply List.map_congr_left
      intro i _
      simp [Function.comp, List.getD_cons_succ]
    rw [this, ih]
    simp [List.getD_cons_zero]

/-- The alternatives built by the code coincide with the spec's index-based
description: one alternative per start index `i`, covering exactly the
fragments at indices `j ≥ i`. -/
theorem opt_alternatives_eq_spec (sep : String) :
    ∀ fs : List String,
      opt_alternatives sep fs = (List.range fs.length).map (spec_opt_alternative sep fs) := by
  intro fs
  induction fs with
  | nil => rfl
  | cons k rest ih =>
    rw [List.length_cons, List.range_succ_eq_map, List.map_cons, List.map_map]
    have hsucc : ((spec_opt_alternative sep (k :: rest)) ∘ Nat.succ)
        = spec_opt_alternative sep rest := by
      funext i
      simp only [Function.comp, spec_opt_alternative, List.getD_cons_succ]
      congr 1
      rw [List.length_cons, List.range_succ_eq_map]
      rw [show (0 :: (List.range rest.length).map Nat.succ).filter (fun j => decide (i + 1 < j))
            = ((List.range rest.length).map Nat.succ).filter (fun j => decide (i + 1 < j)) by
          simp]
      rw [List.filter_map, List.map_map]
      rw [show ((fun j => decide (i + 1 < j)) ∘ Nat.succ) = (fun j => decide (i < j)) by
          funext j; simp [Nat.succ_lt_succ_iff]]
      congr 1
    have hzero : spec_opt_alternative sep (k :: rest) 0
        = k ++ String.join (rest.map
            (fun kj => " ( \"" ++ sep ++ "\" " ++ kj ++ " )?")) := by
      simp only [spec_opt_alternative, List.getD_cons_zero]
      congr 1
      rw [List.length_cons, List.range_succ_eq_map]
      rw [show (0 :: (List.range rest.length).map Nat.succ).filter (fun j => decide (0 < j))
            = ((List.range rest.length).map Nat.succ).filter (fun j => decide (0 < j)) by
          simp]
      rw [List.filter_map, List.map_map]
      rw [show ((fun j => decide (0 < j)) ∘ Nat.succ) = (fun _ => true) by
          funext j; simp]
      rw [List.filter_true]
      have := map_getD_range
        (fun x => " ( \"" ++ sep ++ "\" " ++ x ++ " )?") "" rest
      rw [show ((fun j => " ( \"" ++ sep ++ "\" " ++ (k :: rest).getD j "" ++ " )?") ∘ Nat.succ)
            = (fun i => " ( \"" ++ sep ++ "\" " ++ rest.getD i "" ++ " )?") by
          funext j; simp [Function.comp, List.getD_cons_succ]]
      rw [this]
    rw [hsucc, hzero, ← ih]
    rfl

/-! ## Claim theorems -/

/-- C1: for a tool partitioning into no required and a non-empty optional
list of key-value fragments, the arguments fragment is the alternation with
one alternative per start index `i` — fragment `i` followed, for each later
index `j > i`, by `( "sep" fragment_j )?` — the alternatives joined with
`|` and wrapped in one outer `( ... )?`; no alternative starts at a
fragment and also includes an earlier-declared one. -/
theorem C1_optional_only_alternation (sep : String) (fs : List String) (h : fs ≠ []) :
    combined_args sep [] fs = spec_optional_alternation sep fs := by
  cases fs with
  | nil => exact absurd rfl h
  | cons b bs =>
    rw [spec_optional_alternation, ← opt_alternatives_eq_spec]
    rfl

theorem C1_witness :
    combined_args "," [] ["KA", "KB", "KC"] = spec_optional_alternation "," ["KA", "KB", "KC"] :=
  C1_optional_only_alternation "," ["KA", "KB", "KC"] (by decide)

/-- C3: with required and optional fragments both present, the arguments
fragment is the required chain immediately followed by the optional
alternation gated behind exactly one leading separator:
`required-chain ( "sep" ( optional-alternation ) )?`. -/
theorem C3_mixed_gating (sep : String) (req opt : List String)
    (h1 : req ≠ []) (h2 : opt ≠ []) :
    combined_args sep req opt =
      joinSep (" \"" ++ sep ++ "\" ") req ++ " ( \"" ++ sep ++ "\" ( "
        ++ joinSep " | " ((List.range opt.length).map (spec_opt_alternative sep opt))
        ++ " ) )?" := by
  cases req with
  | nil => exact absurd rfl h1
  | cons a as =>
    cases opt with
    | nil => exact absurd rfl h2
    | cons b bs =>
      rw [← opt_alternatives_eq_spec]
      apply string_eq_of_data
      simp [combined_args, String.join, string_data_append, List.append_assoc]

theorem C3_witness :
    combined_args ";" ["KR"] ["KA", "KB"] =
      joinSep (" \"" ++ ";" ++ "\" ") ["KR"] ++ " ( \"" ++ ";" ++ "\" ( "
        ++ joinSep " | " ((List.range (["KA", "KB"] : List String).length).map
            (spec_opt_alternative ";" ["KA", "KB"]))
        ++ " ) )?" :=
  C3_mixed_gating ";" ["KR"] ["KA", "KB"] (by decide) (by decide)

/-- C4: with only required fragments, the arguments fragment is exactly the
fragments joined by the literal separator, and (when neither the fragments
nor the separator carry them) it contains no `|` and no `?`. -/
theorem C4_required_only_chain (sep : String) (req : List String)
    (hsep : '|' ∉ sep.data ∧ '?' ∉ sep.data)
    (hkv : ∀ k ∈ req, '|' ∉ k.data ∧ '?' ∉ k.data) :
    combined_args sep req [] = joinSep (" \"" ++ sep ++ "\" ") req
    ∧ '|' ∉ (combined_args sep req []).data
    ∧ '?' ∉ (combined_args sep req []).data := by
  have heq : combined_args sep req [] = joinSep (" \"" ++ sep ++ "\" ") req := by
    cases req with
    | nil => rfl
    | cons a as => rfl
  have hsep' : ∀ c : Char, c = '|' ∨ c = '?' → c ∉ (" \"" ++ sep ++ "\" ").data := by
    intro c hc hmem
    rcases (mem_data_append _ _).mp hmem with hm | hm
    · rcases (mem_data_append _ _).mp hm with hm' | hm'
      · rcases hc with rfl | rfl <;> simp [String.data] at hm'
      · rcases hc with rfl | rfl
        · exact hsep.1 hm'
        · exact hsep.2 hm'
    · rcases hc with rfl | rfl <;> simp [String.data] at hm
  have hnot : ∀ c : Char, c = '|' ∨ c = '?' → c ∉ (combined_args sep req []).data := by
    intro c hc hmem
    rw [heq] at hmem
    rcases mem_joinSep_data _ _ hmem with hs | ⟨x, hx, hcx⟩
    · exact hsep' c hc hs
    · rcases hc with rfl | rfl
      · exact (hkv x hx).1 hcx
      · exact (hkv x hx).2 hcx
  exact ⟨heq, hnot '|' (Or.inl rfl), hnot '?' (Or.inr rfl)⟩

theorem C4_witness :
    combined_args "," ["KA", "KB", "KC"] [] = joinSep (" \"" ++ "," ++ "\" ") ["KA", "KB", "KC"]
    ∧ '|' ∉ (combined_args "," ["KA", "KB", "KC"] []).data
    ∧ '?' ∉ (combined_args "," ["KA", "KB", "KC"] []).data :=
  C4_required_only_chain "," ["KA", "KB", "KC"] (by decide) (by decide)

/-- C8: the required/optional partition preserves declaration order: each
partition is an order-preserving sublist of the declaration order, a name
lands in the required partition exactly when it is declared and in the
required set (otherwise in the optional partition), and together the two
partitions are a permutation of the declaration order. -/
theorem C8_partition_preserves_order (ordered_props required_props : List String) :
    (partition_props ordered_props required_props).1.Sublist ordered_props
    ∧ (partition_props ordered_props required_props).2.Sublist ordered_props
    ∧ (∀ p, p ∈ (partition_props ordered_props required_props).1
        ↔ p ∈ ordered_props ∧ p ∈ required_props)
    ∧ (∀ p, p ∈ (partition_props ordered_props required_props).2
        ↔ p ∈ ordered_props ∧ p ∉ required_props)
    ∧ ((partition_props ordered_props required_props).1
        ++ (partition_props ordered_props required_props).2).Perm ordered_props := by
  refine ⟨List.filter_sublist _, List.filter_sublist _, ?_, ?_, ?_⟩
  · intro p
    rw [partition_props]
    simp only [List.mem_filter, List.elem_iff]
  · intro p
    rw [partition_props]
    simp only [List.mem_filter, Bool.not_eq_true', ← Bool.not_eq_true, List.elem_iff]
  · exact List.filter_append_perm _ ordered_props

/-- Whenever `ebnf_lines` succeeds, its first line is the root rule. -/
theorem ebnf_lines_head (tools : List Tool) (ff : String)
    (sst sete icst icet tcs crf kvrf : Option String) (sep : String)
    (ls : List String)
    (h : ebnf_lines tools ff sst sete icst icet tcs crf kvrf sep = some ls) :
    ls.head? = some ("root ::= " ++ root_rule sst sete icst icet tcs) := by
  unfold ebnf_lines at h
  cases hT : templates_for ff crf kvrf with
  | none =>
    rw [hT] at h
    simp at h
  | some tpl =>
    obtain ⟨ct, argst, kvt⟩ := tpl
    rw [hT] at h
    simp only [Option.bind_eq_bind, Option.some_bind] at h
    cases hM : tools.mapM (toolLines ct argst kvt ff sep) with
    | none =>
      rw [hM] at h
      simp at h
    | some tr =>
      rw [hM] at h
      simp only [Option.bind_eq_bind, Option.some_bind, Option.pure_def,
        Option.some.injEq] at h
      rw [← h]
      rfl

set_option maxRecDepth 40000 in
/-- C7: with sequence tokens `<tools>` / `</tools>` and call separator `;`
(and no individual-call tokens), the root rule is exactly
`"<tools>" function_call ( ";" function_call )* "</tools>"`, each wrapping
token and the separator occurring as a quoted literal exactly once, and any
successful `build_ebnf` output starts with this root rule line. -/
theorem C7_sequence_wrapping_round_trip :
    root_rule (some "<tools>") (some "</tools>") none none (some ";")
      = "\"<tools>\" function_call ( \";\" function_call )* \"</tools>\""
    ∧ countOccur (root_rule (some "<tools>") (some "</tools>") none none (some ";"))
        "\"<tools>\"" = 1
    ∧ countOccur (root_rule (some "<tools>") (some "</tools>") none none (some ";"))
        "\"</tools>\"" = 1
    ∧ countOccur (root_rule (some "<tools>") (some "</tools>") none none (some ";"))
        "\";\"" = 1
    ∧ (∀ (tools : List Tool) (ff : String) (crf kvrf : Option String) (sep : String)
         (ls : List String),
        ebnf_lines tools ff (some "<tools>") (some "</tools>") none none (some ";")
            crf kvrf sep = some ls →
        ls.head? = some ("root ::= "
          ++ root_rule (some "<tools>") (some "</tools>") none none (some ";"))) := by
  refine ⟨by decide, by decide, by decide, by decide, ?_⟩
  intro tools ff crf kvrf sep ls h
  exact ebnf_lines_head tools ff _ _ none none _ crf kvrf sep ls h

set_option maxRecDepth 100000 in
set_option maxHeartbeats 1000000 in
theorem C7_witness :
    (["root ::= \"<tools>\" function_call ( \";\" function_call )* \"</tools>\"",
      "function_call ::= ", grammar_for "json"] : List String).head?
      = some ("root ::= "
          ++ root_rule (some "<tools>") (some "</tools>") none none (some ";")) :=
  C7_sequence_wrapping_round_trip.2.2.2.2 [] "json" none none ","
    ["root ::= \"<tools>\" function_call ( \";\" function_call )* \"</tools>\"",
     "function_call ::= ", grammar_for "json"] (by decide)

/-- C9: on an empty tool list `build_ebnf` (for every registered format,
any wrapping configuration and any template overrides) succeeds, emitting
exactly the root line, the dispatch line `function_call ::= ` with an empty
right-hand side, and the base grammar block — no per-tool lines. -/
theorem C9_empty_tool_list (ff : String)
    (hff : ff = "json" ∨ ff = "pythonic" ∨ ff = "xml")
    (sst sete icst icet tcs crf kvrf : Option String) (sep : String) :
    ebnf_lines [] ff sst sete icst icet tcs crf kvrf sep =
      some ["root ::= " ++ root_rule sst sete icst icet tcs,
            "function_call ::= ", grammar_for ff]
    ∧ (build_ebnf [] ff sst sete icst icet tcs crf kvrf sep).isSome = true := by
  have hsome : (templates_for ff crf kvrf).isSome = true := by
    unfold templates_for
    rcases hff with rfl | rfl | rfl <;>
      cases hcrf : optTruthy crf <;> cases hkv : optTruthy kvrf <;>
        simp [hcrf, hkv, CALL_RULE_MAP, ARGUMENTS_RULE_MAP, KEY_VALUE_RULE_MAP]
  obtain ⟨tpl, hT⟩ := Option.isSome_iff_exists.mp hsome
  obtain ⟨ct, argst, kvt⟩ := tpl
  have hlines : ebnf_lines [] ff sst sete icst icet tcs crf kvrf sep =
      some ["root ::= " ++ root_rule sst sete icst icet tcs,
            "function_call ::= ", grammar_for ff] := by
    unfold ebnf_lines
    rw [hT]
    simp [joinSep, append_empty, List.mapM, List.mapM.loop, Option.bind_eq_bind]
  refine ⟨hlines, ?_⟩
  rw [build_ebnf, hlines]
  rfl

theorem C9_witness :
    ebnf_lines [] "pythonic" (some "[") (some "]") none none (some ", ") none none "," =
      some ["root ::= " ++ root_rule (some "[") (some "]") none none (some ", "),
            "function_call ::= ", grammar_for "pythonic"]
    ∧ (build_ebnf [] "pythonic" (some "[") (some "]") none none (some ", ")
        none none ",").isSome = true :=
  C9_empty_tool_list "pythonic" (by simp)
    (some "[") (some "]") none none (some ", ") none none ","

/-- C2 counterexample: with the unrecognized format `yaml` and no template
overrides, `build_ebnf` raises (modelled `none`) instead of returning the
grammar produced for `json`: the two calls do not agree. -/
theorem C2_counterexample :
    build_ebnf [] "yaml" none none none none none none none "," = none
    ∧ build_ebnf [] "json" none none none none none none none "," ≠ none
    ∧ build_ebnf [] "yaml" none none none none none none none ","
        ≠ build_ebnf [] "json" none none none none none none none "," := by
  have hyaml : build_ebnf [] "yaml" none none none none none none none "," = none := rfl
  have hjson : (build_ebnf [] "json" none none none none none none none ",").isSome
      = true := rfl
  refine ⟨hyaml, ?_, ?_⟩
  · intro hcontra
    rw [hcontra] at hjson
    simp at hjson
  · intro hcontra
    rw [← hcontra, hyaml] at hjson
    simp at hjson

/-- C2 amended: a format string other than `json`, `pythonic`, `xml` makes
`build_ebnf` raise a `KeyError` at the template-map lookups (modelled as
`none`), with or without template overrides; only the trailing base-grammar
block would have fallen back to the `json` profile. -/
theorem C2_unknown_format_fails (tools : List Tool) (ff : String)
    (h1 : ff ≠ "pythonic") (h2 : ff ≠ "json") (h3 : ff ≠ "xml")
    (sst sete icst icet tcs crf kvrf : Option String) (sep : String) :
    build_ebnf tools ff sst sete icst icet tcs crf kvrf sep = none := by
  have hA : ARGUMENTS_RULE_MAP ff = none := by
    simp [ARGUMENTS_RULE_MAP, h1, h2, h3]
  have hC : CALL_RULE_MAP ff = none := by
    simp [CALL_RULE_MAP, h1, h2, h3]
  have hT : templates_for ff crf kvrf = none := by
    unfold templates_for
    cases hcrf : optTruthy crf <;> simp [hcrf, hA, hC]
  unfold build_ebnf ebnf_lines
  rw [hT]
  rfl

theorem C2_amended_witness :
    build_ebnf [⟨⟨"t", none⟩⟩] "toml" none none none none none none none "," = none :=
  C2_unknown_format_fails [⟨⟨"t", none⟩⟩] "toml" (by decide) (by decide) (by decide)
    none none none none none none none ","

/-- C5: evaluating the enum renderer at the boolean enum `[true, false]`:
the code emits the bare words `(True | False)` (pythonic) and
`(true | false)` (json/xml) — without the quote characters the claim
requires — while multi-element parenthesization and single-element
unparenthesized rendering behave as claimed. -/
theorem C5_boolean_enum_eval :
    get_value_rule ⟨some [JVal.b true, JVal.b false], some (.single "boolean")⟩ "pythonic"
      = "(True | False)"
    ∧ get_value_rule ⟨some [JVal.b true, JVal.b false], some (.single "boolean")⟩ "json"
      = "(true | false)"
    ∧ get_value_rule ⟨some [JVal.b true, JVal.b false], some (.single "boolean")⟩ "xml"
      = "(true | false)"
    ∧ handle_enum [JVal.s "a", JVal.s "b"] none "json" = "(\"\\\"a\\\"\" | \"\\\"b\\\"\")"
    ∧ handle_enum [JVal.s "a"] none "json" = "\"\\\"a\\\"\"" := by
  refine ⟨rfl, rfl, rfl, rfl, rfl⟩

set_option maxRecDepth 100000 in
set_option maxHeartbeats 1000000 in
/-- C6: type names resolve through the base mapping overlaid by the
format's overrides; a name absent from both resolves to the format string
(the name of the format's top-level value rule, which each base grammar
defines exactly once); a non-empty union list joins its resolved names
with `|`; and a schema with neither enum nor type yields the format's
top-level value rule name. -/
theorem C6_type_resolution :
    (∀ ff t, (FORMAT_TYPE_OVERRIDES ff).lookup t = none →
        BASE_TYPE_MAPPING.lookup t = none → handle_type (.single t) ff = ff)
    ∧ (∀ ff t v, (FORMAT_TYPE_OVERRIDES ff).lookup t = some v →
        handle_type (.single t) ff = v)
    ∧ (∀ ff t v, (FORMAT_TYPE_OVERRIDES ff).lookup t = none →
        BASE_TYPE_MAPPING.lookup t = some v → handle_type (.single t) ff = v)
    ∧ (∀ ff (ts : List String), ts ≠ [] → handle_type (.listOf ts) ff
        = joinSep " | " (ts.map (fun t => (get_type_mapping ff t).getD ff)))
    ∧ (∀ ff, get_value_rule ⟨none, none⟩ ff = ff)
    ∧ countOccur json_grammar_ebnf_str "\n        json ::= " = 1
    ∧ countOccur pythonic_grammar_ebnf_str "\n        pythonic ::= " = 1
    ∧ countOccur xml_grammar_ebnf_str "\n        xml ::= " = 1 := by
  refine ⟨?_, ?_, ?_, ?_, fun ff => rfl, by decide, by decide, by decide⟩
  · intro ff t hov hbase
    simp [handle_type, get_type_mapping, hov, hbase]
  · intro ff t v hov
    simp [handle_type, get_type_mapping, hov]
  · intro ff t v hov hbase
    simp [handle_type, get_type_mapping, hov, hbase]
  · intro ff ts hts
    rw [handle_type, if_neg (by simp [hts])]

theorem C6_witness :
    handle_type (.single "custom") "json" = "json"
    ∧ handle_type (.single "boolean") "pythonic" = "\"True\" | \"False\""
    ∧ handle_type (.single "integer") "xml" = "basic_number"
    ∧ handle_type (.listOf ["string", "null"]) "json"
        = joinSep " | " (["string", "null"].map
            (fun t => (get_type_mapping "json" t).getD "json")) :=
  ⟨C6_type_resolution.1 "json" "custom" (by decide) (by decide),
   C6_type_resolution.2.1 "pythonic" "boolean" _ (by decide),
   C6_type_resolution.2.2.1 "xml" "integer" _ (by decide) (by decide),
   C6_type_resolution.2.2.2.1 "json" ["string", "null"] (by decide)⟩

/-- Filtering one name out of the required list does not change membership
tests for any other name. -/
theorem contains_filter_bne (req : List String) (p x : String) (hpx : p ≠ x) :
    (req.filter (fun q => q != x)).contains p = req.contains p := by
  by_cases h : p ∈ req
  · have h1 : p ∈ req.filter (fun q => q != x) :=
      List.mem_filter.mpr ⟨h, by simp [bne_iff_ne, hpx]⟩
    rw [show (req.filter (fun q => q != x)).contains p = true from List.elem_iff.mpr h1,
      show req.contains p = true from List.elem_iff.mpr h]
  · have h1 : p ∉ req.filter (fun q => q != x) := fun hmem => h (List.mem_filter.mp hmem).1
    have e1 : (req.filter (fun q => q != x)).contains p = false :=
      Bool.eq_false_iff.mpr (fun hc => h1 (List.elem_iff.mp hc))
    have e2 : req.contains p = false :=
      Bool.eq_false_iff.mpr (fun hc => h (List.elem_iff.mp hc))
    rw [e1, e2]

/-- Removing a name that is not a declared property from the required set
leaves the required/optional partition unchanged. -/
theorem partition_props_filter (l req : List String) (x : String) (hx : x ∉ l) :
    partition_props l (req.filter (fun q => q != x)) = partition_props l req := by
  unfold partition_props
  have h1 : l.filter (fun p => (req.filter (fun q => q != x)).contains p)
      = l.filter (fun p => req.contains p) :=
    List.filter_congr (fun p hp => contains_filter_bne req p x (fun he => hx (he ▸ hp)))
  have h2 : l.filter (fun p => !(req.filter (fun q => q != x)).contains p)
      = l.filter (fun p => !req.contains p) :=
    List.filter_congr (fun p hp => by
      rw [contains_filter_bne req p x (fun he => hx (he ▸ hp))])
  rw [h1, h2]

/-- C10: a name in the required set that is not a declared property is
silently ignored: the per-tool rules (the `call_<name>` line and the
`arguments_<name>` rule) are identical to those generated with that name
removed from the required set, and no error arises from it. -/
theorem C10_undeclared_required_name_ignored
    (callT argsT kvT ff sep name : String)
    (props : List (String × PropSchema)) (req : List String) (x : String)
    (hx_in : x ∈ req) (hx : x ∉ props.map Prod.fst) :
    toolLines callT argsT kvT ff sep ⟨⟨name, some ⟨props, req⟩⟩⟩
      = toolLines callT argsT kvT ff sep
          ⟨⟨name, some ⟨props, req.filter (fun q => q != x)⟩⟩⟩ := by
  simp only [toolLines, Option.getD_some, partition_props_filter (props.map Prod.fst) req x hx]

theorem C10_witness :
    toolLines "ct" "argt" "kvt" "json" "," ⟨⟨"f", some ⟨[("a", ⟨none, none⟩)], ["a", "ghost"]⟩⟩⟩
      = toolLines "ct" "argt" "kvt" "json" ","
          ⟨⟨"f", some ⟨[("a", ⟨none, none⟩)],
              (["a", "ghost"].filter (fun q => q != "ghost"))⟩⟩⟩ :=
  C10_undeclared_required_name_ignored "ct" "argt" "kvt" "json" "," "f"
    [("a", ⟨none, none⟩)] ["a", "ghost"] "ghost" (by decide) (by decide)

end EBNF
